import Mathlib

/-!
Verification development for the Node/Express example service of the
template2 repository (src/examples/nodejs/src/index.ts).

The service keeps an in-memory list of user records, validates write
payloads with a fixed schema, protects one route with a signed session
token, and rate limits every request.  The definitions below are a shallow
embedding of that code: pure Lean functions over explicit state, with
machine-level JS quirks (NaN path ids, -Infinity from Math.max over an
empty array) modelled by Option types.
-/

set_option linter.unusedVariables false

namespace Template2

/-- A JS number used for stored user ids: `some n` is the integer `n`, and
`none` models `-Infinity`, the only non-finite value that can arise for a
stored id (from `Math.max()` over an empty collection). -/
abbrev JsNum := Option Int

/-- Result of `parseInt(req.params.id)`: `some n` when the path parameter
parses to the integer `n`, `none` when parseInt yields `NaN`. -/
abbrev PathId := Option Int

/-- JS `Math.max` on two values, with `-Infinity` (`none`) as identity. -/
def jsMax : JsNum → JsNum → JsNum
  | none, b => b
  | some a, none => some a
  | some a, some b => some (max a b)

/-- Adding 1 to a JS number: `-Infinity + 1 = -Infinity`. -/
def jsAdd1 : JsNum → JsNum
  | none => none
  | some a => some (a + 1)

/-- A stored user record, the `User` type of the source. -/
structure User where
  id : JsNum
  name : String
  email : String
  age : Option Int
  deriving DecidableEq

/-- A request body for create and update: either JSON of the schema shape
(string name, string email, optional numeric age) or anything else, which
`UserCreateSchema.parse` rejects. -/
inductive ReqBody where
  | shaped (name : String) (email : String) (age : Option Int)
  | malformed
  deriving DecidableEq

/-- The data extracted from a body accepted by `UserCreateSchema.parse`. -/
structure CreateData where
  name : String
  email : String
  age : Option Int
  deriving DecidableEq

/-- Modelled from the spec: the email format check of the validation
library, `z.string().email()`, whose implementation is not part of the
repository.  Abstracted to: exactly one at-sign, with nonempty text on both
sides.  No claim depends on the exact accepted language. -/
def isEmail (s : String) : Bool :=
  let cs := s.toList
  cs.count ('@') == 1 && cs.head? != some ('@') && cs.getLast? != some ('@')

/-- The optional age bound of the schema: `z.number().min(1).max(150)`. -/
def validAge : Option Int → Bool
  | none => true
  | some a => decide (1 ≤ a) && decide (a ≤ 150)

/-- `UserCreateSchema.parse`: name of length 1..100, valid email, optional
age in 1..150; any other body raises a ZodError, modelled by `none`. -/
def parseUserCreate : ReqBody → Option CreateData
  | .malformed => none
  | .shaped name email age =>
    if decide (1 ≤ name.length) && decide (name.length ≤ 100)
        && isEmail email && validAge age then
      some ⟨name, email, age⟩
    else none

/-- A login request body: either the schema shape or anything else. -/
inductive LoginBody where
  | shaped (username : String) (password : String)
  | malformed
  deriving DecidableEq

/-- `AuthSchema.parse`: username of length 3..50, password of length
6..100. -/
def parseAuth : LoginBody → Option (String × String)
  | .malformed => none
  | .shaped username password =>
    if decide (3 ≤ username.length) && decide (username.length ≤ 50)
        && decide (6 ≤ password.length) && decide (password.length ≤ 100) then
      some (username, password)
    else none

/-- The decoded subject a verified token attaches to the request. -/
structure Subject where
  id : Int
  username : String
  deriving DecidableEq

/-- The signing secret: `process.env.JWT_SECRET` is unset, so the source
default applies. -/
def JWT_SECRET : String := "your-secret-key"

/-- Modelled from the spec: a session token blob as handled by the external
jwt library.  A well-formed blob carries the subject, the expiry time in
seconds since epoch, and a signature field that verification compares with
the signing secret; any other nonempty string is junk that never
verifies. -/
inductive TokenWord where
  | signed (sub : Subject) (exp : Nat) (sig : String)
  | junk (s : String)
  deriving DecidableEq

/-- Modelled from the spec: `jwt.sign(payload, JWT_SECRET, expiresIn 24h)`:
the expiry is issuance time plus 86400 seconds. -/
def jwtSign (sub : Subject) (now : Nat) : TokenWord :=
  .signed sub (now + 86400) JWT_SECRET

/-- Modelled from the spec: `jwt.verify` succeeds exactly when the
signature matches the secret and the token is not expired. -/
def jwtVerify (w : TokenWord) (now : Nat) : Option Subject :=
  match w with
  | .junk _ => none
  | .signed sub exp sig =>
    if sig = JWT_SECRET ∧ now < exp then some sub else none

/-- The Authorization header as seen by `authenticateToken`, represented by
the outcome of taking the second space-separated word of the header:
`absent` is no header at all, `noToken` is a header whose second word is
missing or empty (both JS-falsy), `token w` is a nonempty second word. -/
inductive Bearer where
  | absent
  | noToken
  | token (w : TokenWord)
  deriving DecidableEq

/-- The `authenticateToken` middleware: 401 when no token is present, 403
when the token does not verify, otherwise the decoded subject. -/
def authenticateToken (h : Bearer) (now : Nat) : Except Nat Subject :=
  match h with
  | .absent => .error 401
  | .noToken => .error 401
  | .token w =>
    match jwtVerify w now with
    | none => .error 403
    | some sub => .ok sub

/-- Modelled from the spec: the external bcrypt hash, abstracted to an
injective tagging function; `bcryptCompare` checks a password against a
stored hash. -/
def bcryptHash (pw : String) : String := "bcrypt$" ++ pw

/-- Modelled from the spec: `bcrypt.compare(password, storedHash)`. -/
def bcryptCompare (pw hash : String) : Bool := hash == bcryptHash pw

/-- A credential record of the mock auth database. -/
structure AuthUser where
  id : Int
  username : String
  password : String
  deriving DecidableEq

/-- The seed auth database: one user, whose stored hash is the bcrypt hash
of the password admin123 (per the source comment). -/
def authUsers : List AuthUser := [⟨1, "admin", bcryptHash ("admin123")⟩]

/-- Bodies of the JSON responses the handlers produce. -/
inductive RespBody where
  | empty
  | user (u : User)
  | userList (l : List User)
  | err (msg : String)
  | loginOk (token : TokenWord) (id : Int) (username : String)
  | greeting (sub : Subject)
  deriving DecidableEq

/-- An HTTP response: status code and body. -/
structure Response where
  status : Nat
  body : RespBody
  deriving DecidableEq

/-- The seed user collection of the source. -/
def initialUsers : List User :=
  [⟨some 1, "Alice Johnson", "alice@example.com", some 30⟩,
   ⟨some 2, "Bob Smith", "bob@example.com", some 25⟩]

/-- `Math.max(...users.map(u => u.id))`: `-Infinity` on an empty list. -/
def maxId (us : List User) : JsNum :=
  us.foldr (fun u m => jsMax u.id m) none

/-- The comparison `u.id === id` of the handlers, where `id` is a parseInt
result: NaN (`none`) compares unequal to every stored id, and a stored
`-Infinity` id is never equal to an integer path id. -/
def matchesId (pid : PathId) (uid : JsNum) : Bool :=
  match pid with
  | none => false
  | some n => uid == some n

/-- JS `Array.prototype.findIndex`, returning `none` for -1. -/
def findIndex (p : α → Bool) : List α → Option Nat
  | [] => none
  | a :: l => if p a then some 0 else (findIndex p l).map (· + 1)

/-- Handler of GET /users/:id. -/
def getUserH (pid : PathId) (us : List User) : Response × List User :=
  match us.find? (fun u => matchesId pid u.id) with
  | some u => (⟨200, .user u⟩, us)
  | none => (⟨404, .err ("User not found")⟩, us)

/-- Handler of POST /users: validate, then assign
`Math.max(...ids) + 1` as the id and append the new record. -/
def postUsersH (b : ReqBody) (us : List User) : Response × List User :=
  match parseUserCreate b with
  | none => (⟨400, .err ("Validation failed")⟩, us)
  | some d =>
    let newUser : User := ⟨jsAdd1 (maxId us), d.name, d.email, d.age⟩
    (⟨201, .user newUser⟩, us ++ [newUser])

/-- Handler of PUT /users/:id.  Validation runs before the existence check,
as in the source; a NaN path id matches no record, so findIndex yields -1
and the handler answers 404 (the inner match on `pid` is that fact made
explicit, since `matchesId none` is constantly false). -/
def putUserH (pid : PathId) (b : ReqBody) (us : List User) :
    Response × List User :=
  match parseUserCreate b with
  | none => (⟨400, .err ("Validation failed")⟩, us)
  | some d =>
    match pid with
    | none => (⟨404, .err ("User not found")⟩, us)
    | some n =>
      match findIndex (fun u => matchesId (some n) u.id) us with
      | none => (⟨404, .err ("User not found")⟩, us)
      | some i =>
        let updatedUser : User := ⟨some n, d.name, d.email, d.age⟩
        (⟨200, .user updatedUser⟩, us.set i updatedUser)

/-- Handler of DELETE /users/:id: splice the first record whose id matches
out of the collection. -/
def deleteUserH (pid : PathId) (us : List User) : Response × List User :=
  match findIndex (fun u => matchesId pid u.id) us with
  | none => (⟨404, .err ("User not found")⟩, us)
  | some i => (⟨204, .empty⟩, us.eraseIdx i)

/-- Handler of POST /auth/login: validate, look the username up, compare
the password hash, and sign a token with a 24 hour expiry. -/
def loginH (now : Nat) (b : LoginBody) : Response :=
  match parseAuth b with
  | none => ⟨400, .err ("Validation failed")⟩
  | some (username, password) =>
    match authUsers.find? (fun u => u.username == username) with
    | none => ⟨401, .err ("Invalid credentials")⟩
    | some u =>
      if bcryptCompare password u.password then
        ⟨200, .loginOk (jwtSign ⟨u.id, u.username⟩ now) u.id u.username⟩
      else ⟨401, .err ("Invalid credentials")⟩

/-- GET /protected: the authenticateToken middleware followed by the route
handler, which greets the decoded subject. -/
def protectedH (now : Nat) (h : Bearer) : Response :=
  match authenticateToken h now with
  | .error code =>
    ⟨code, .err (if code == 401 then ("Access token required")
                 else ("Invalid token"))⟩
  | .ok sub => ⟨200, .greeting sub⟩

/-- Capacity of the rate limiter (`points: 100`). -/
def rlPoints : Nat := 100

/-- Window of the rate limiter in seconds (`duration: 60`). -/
def rlDuration : Nat := 60

/-- Per-key rate limit state: consumed points and window expiry time. -/
abbrev RLEntry := Nat × Nat

/-- Modelled from the spec: one consume of one unit for a single key of the
external rate-limiter-flexible memory limiter.  A fresh or expired key
starts a new window ending at now + 60 with one point consumed; a live
window increments the counter and admits exactly when the total stays
within capacity. -/
def rlStep (now : Nat) (e : Option RLEntry) : Bool × RLEntry :=
  match e with
  | some (c, ex) =>
    if now < ex then (decide (c + 1 ≤ rlPoints), (c + 1, ex))
    else (true, (1, now + rlDuration))
  | none => (true, (1, now + rlDuration))

/-- Lookup of a key in the limiter store. -/
def rlLookup (key : String) : List (String × RLEntry) → Option RLEntry
  | [] => none
  | (k, e) :: rest => if k == key then some e else rlLookup key rest

/-- Write of a key in the limiter store. -/
def rlSet (key : String) (v : RLEntry) :
    List (String × RLEntry) → List (String × RLEntry)
  | [] => [(key, v)]
  | (k, e) :: rest =>
    if k == key then (k, v) :: rest else (k, e) :: rlSet key v rest

/-- `rateLimiter.consume(req.ip)`: admit or reject, updating the store. -/
def rlConsume (now : Nat) (key : String) (rl : List (String × RLEntry)) :
    Bool × List (String × RLEntry) :=
  let s := rlStep now (rlLookup key rl)
  (s.1, rlSet key s.2 rl)

/-- A run of consecutive consumes for one key: the list of admit decisions
and the final entry. -/
def rlRun (ts : List Nat) (e : Option RLEntry) :
    List Bool × Option RLEntry :=
  match ts with
  | [] => ([], e)
  | t :: rest =>
    let s := rlStep t e
    let r := rlRun rest (some s.2)
    (s.1 :: r.1, r.2)

/-- The routes of the service that the claims mention. -/
inductive Route where
  | getUsersR
  | getUserR (pid : PathId)
  | postUsersR (b : ReqBody)
  | putUserR (pid : PathId) (b : ReqBody)
  | deleteUserR (pid : PathId)
  | loginR (b : LoginBody)
  | protectedRoute (h : Bearer)
  deriving DecidableEq

/-- The mutable server state: the user collection and the limiter store. -/
structure ServerState where
  users : List User
  rl : List (String × RLEntry)
  deriving DecidableEq

/-- Route dispatch after the rate limiter has admitted the request. -/
def dispatch (now : Nat) (r : Route) (us : List User) :
    Response × List User :=
  match r with
  | .getUsersR => (⟨200, .userList us⟩, us)
  | .getUserR pid => getUserH pid us
  | .postUsersR b => postUsersH b us
  | .putUserR pid b => putUserH pid b us
  | .deleteUserR pid => deleteUserH pid us
  | .loginR b => (loginH now b, us)
  | .protectedRoute h => (protectedH now h, us)

/-- The request pipeline: rate limiting first; a rejected request is
answered 429 and reaches no later stage. -/
def handle (now : Nat) (key : String) (r : Route) (st : ServerState) :
    Response × ServerState :=
  match rlConsume now key st.rl with
  | (true, rl2) =>
    let d := dispatch now r st.users
    (d.1, ⟨d.2, rl2⟩)
  | (false, rl2) => (⟨429, .err ("Rate limit exceeded")⟩, ⟨st.users, rl2⟩)

/-- The admit pattern of a run of n consumes inside one live window that
already holds c consumed points. -/
def padmits (c : Nat) : Nat → List Bool
  | 0 => []
  | n + 1 => decide (c + 1 ≤ rlPoints) :: padmits (c + 1) n

theorem findIndex_eq_none_iff (p : α → Bool) (l : List α) :
    findIndex p l = none ↔ ∀ a ∈ l, p a = false := by
  induction l with
  | nil => simp [findIndex]
  | cons a l ih =>
    by_cases h : p a = true
    · simp [findIndex, h]
    · simp only [findIndex, if_neg h]
      constructor
      · intro hm b hb
        rcases List.mem_cons.mp hb with rfl | hb2
        · simpa using h
        · refine (ih.mp ?_) b hb2
          cases hf : findIndex p l with
          | none => rfl
          | some j => rw [hf] at hm; simp at hm
      · intro hall
        have hn : findIndex p l = none :=
          ih.mpr (fun b hb => hall b (List.mem_cons_of_mem a hb))
        rw [hn]
        rfl

theorem findIndex_some_spec (p : α → Bool) (l : List α) (i : Nat)
    (h : findIndex p l = some i) :
    i < l.length ∧ ∃ a, l[i]? = some a ∧ p a = true := by
  induction l generalizing i with
  | nil => simp [findIndex] at h
  | cons a l ih =>
    by_cases hp : p a = true
    · simp only [findIndex, if_pos hp, Option.some.injEq] at h
      subst h
      exact ⟨by simp, a, by simp, hp⟩
    · simp only [findIndex, if_neg hp] at h
      cases hf : findIndex p l with
      | none => rw [hf] at h; simp at h
      | some j =>
        rw [hf] at h
        simp only [Option.map_some', Option.some.injEq] at h
        subst h
        obtain ⟨hlt, b, hb, hpb⟩ := ih j hf
        exact ⟨by simpa using hlt, b, by simpa using hb, hpb⟩

theorem maxId_cons (u : User) (us : List User) :
    maxId (u :: us) = jsMax u.id (maxId us) := rfl

theorem maxId_mem (us : List User) (m : Int) (h : maxId us = some m) :
    ∃ u ∈ us, u.id = some m := by
  induction us with
  | nil => simp [maxId] at h
  | cons u us ih =>
    rw [maxId_cons] at h
    cases hu : u.id with
    | none =>
      rw [hu] at h
      simp only [jsMax] at h
      obtain ⟨v, hv, hvm⟩ := ih h
      exact ⟨v, List.mem_cons_of_mem u hv, hvm⟩
    | some a =>
      cases hr : maxId us with
      | none =>
        rw [hu, hr] at h
        simp only [jsMax, Option.some.injEq] at h
        exact ⟨u, List.mem_cons_self u us, by rw [hu, h]⟩
      | some b =>
        rw [hu, hr] at h
        simp only [jsMax, Option.some.injEq] at h
        rcases le_total a b with hab | hab
        · have hbm : b = m := by rw [← h, max_eq_right hab]
          obtain ⟨v, hv, hvm⟩ := ih (by rw [hr, hbm])
          exact ⟨v, List.mem_cons_of_mem u hv, hvm⟩
        · exact ⟨u, List.mem_cons_self u us, by rw [hu, ← h, max_eq_left hab]⟩

theorem maxId_mem_le (us : List User) (u : User) (k : Int)
    (hu : u ∈ us) (hk : u.id = some k) :
    ∃ m : Int, maxId us = some m ∧ k ≤ m := by
  induction us with
  | nil => simp at hu
  | cons v us ih =>
    rw [List.mem_cons] at hu
    rcases hu with rfl | hu
    · rw [maxId_cons, hk]
      cases hr : maxId us with
      | none => exact ⟨k, by simp [jsMax], le_refl k⟩
      | some b => exact ⟨max k b, by simp [jsMax], le_max_left k b⟩
    · obtain ⟨m, hm, hkm⟩ := ih hu
      rw [maxId_cons, hm]
      cases hv : v.id with
      | none => exact ⟨m, by simp [jsMax], hkm⟩
      | some a =>
        exact ⟨max a m, by simp [jsMax], le_trans hkm (le_max_right a m)⟩

theorem matches_eq_id (n : Int) (uid : JsNum)
    (h : matchesId (some n) uid = true) : uid = some n := by
  simpa [matchesId] using h

theorem find_eraseIdx_none (us : List User) (n : Int) (i : Nat)
    (hnd : (us.map User.id).Nodup)
    (h : findIndex (fun u => matchesId (some n) u.id) us = some i) :
    (us.eraseIdx i).find? (fun u => matchesId (some n) u.id) = none := by
  induction us generalizing i with
  | nil => simp [findIndex] at h
  | cons u us ih =>
    rw [List.map_cons, List.nodup_cons] at hnd
    by_cases hp : matchesId (some n) u.id = true
    · simp only [findIndex, if_pos hp, Option.some.injEq] at h
      subst h
      rw [List.eraseIdx_cons_zero]
      refine List.find?_eq_none.mpr (fun v hv hmv => ?_)
      have hvid : v.id = some n := matches_eq_id n v.id hmv
      have huid : u.id = some n := matches_eq_id n u.id hp
      exact hnd.1 (by rw [huid, ← hvid]; exact List.mem_map_of_mem User.id hv)
    · simp only [findIndex, if_neg hp] at h
      cases hf : findIndex (fun u => matchesId (some n) u.id) us with
      | none => rw [hf] at h; simp at h
      | some j =>
        rw [hf] at h
        simp only [Option.map_some', Option.some.injEq] at h
        subst h
        rw [List.eraseIdx_cons_succ, List.find?_cons_of_neg _ (by simpa using hp)]
        exact ih j hnd.2 hf

theorem rlRun_live (ts : List Nat) (c ex : Nat)
    (h : ∀ t ∈ ts, t < ex) :
    rlRun ts (some (c, ex)) = (padmits c ts.length, some (c + ts.length, ex)) := by
  induction ts generalizing c with
  | nil => simp [rlRun, padmits]
  | cons t ts ih =>
    have ht : t < ex := h t (List.mem_cons_self t ts)
    have hrest : ∀ s ∈ ts, s < ex := fun s hs => h s (List.mem_cons_of_mem t hs)
    simp only [rlRun, rlStep, if_pos ht, ih (c + 1) hrest, padmits,
      List.length_cons, Prod.mk.injEq, Option.some.injEq]
    exact ⟨trivial, by omega, trivial⟩

/-- C1 counterexample: starting from the seed collection, POST /users
assigns id 3; after DELETE /users/3 removes that record, a second POST
assigns id 3 again, so the assigned id is neither unique among all ids
ever assigned nor strictly greater than every previously assigned id once
a delete intervenes. -/
theorem c1_counterexample :
    (postUsersH (.shaped ("Carl") ("carl@example.com") none)
        initialUsers).1.body
      = .user ⟨some 3, "Carl", "carl@example.com", none⟩ ∧
    (postUsersH (.shaped ("Dana") ("dana@example.com") none)
        (deleteUserH (some 3)
          (postUsersH (.shaped ("Carl") ("carl@example.com") none)
            initialUsers).2).2).1.body
      = .user ⟨some 3, "Dana", "dana@example.com", none⟩ := by
  constructor <;> decide

/-- C1 amended: for a schema-valid payload and a nonempty collection all
of whose stored ids are integers, the assigned id is strictly greater
than every id currently in the collection, hence unique among the current
records; uniqueness over all ids ever assigned does not survive deletes
of the maximal record. -/
theorem c1_amended (us : List User) (b : ReqBody) (d : CreateData)
    (hb : parseUserCreate b = some d) (hne : us ≠ [])
    (hints : ∀ u ∈ us, ∃ k : Int, u.id = some k) :
    ∃ m : Int,
      postUsersH b us =
        (⟨201, .user ⟨some m, d.name, d.email, d.age⟩⟩,
         us ++ [⟨some m, d.name, d.email, d.age⟩]) ∧
      ∀ u ∈ us, ∀ k : Int, u.id = some k → k < m := by
  obtain ⟨u0, us0, rfl⟩ : ∃ u0 us0, us = u0 :: us0 := by
    cases us with
    | nil => exact absurd rfl hne
    | cons a l => exact ⟨a, l, rfl⟩
  obtain ⟨k0, hk0⟩ := hints u0 (List.mem_cons_self u0 us0)
  obtain ⟨mm, hmm, _⟩ :=
    maxId_mem_le (u0 :: us0) u0 k0 (List.mem_cons_self u0 us0) hk0
  refine ⟨mm + 1, ?_, ?_⟩
  · simp [postUsersH, hb, hmm, jsAdd1]
  · intro u hu k hk
    obtain ⟨m2, hm2, hk2⟩ := maxId_mem_le (u0 :: us0) u k hu hk
    rw [hmm] at hm2
    injection hm2 with hm2
    omega

/-- C1 witness: applying the amended theorem to the seed collection and a
concrete valid payload. -/
theorem c1_amended_witness :
    ∃ m : Int,
      postUsersH (.shaped ("Carl") ("carl@example.com") none) initialUsers =
        (⟨201, .user ⟨some m, "Carl", "carl@example.com", none⟩⟩,
         initialUsers ++ [⟨some m, "Carl", "carl@example.com", none⟩]) ∧
      ∀ u ∈ initialUsers, ∀ k : Int, u.id = some k → k < m :=
  c1_amended initialUsers (.shaped ("Carl") ("carl@example.com") none)
    ⟨"Carl", "carl@example.com", none⟩ (by decide) (by decide)
    (by
      intro u hu
      rcases List.mem_cons.mp hu with rfl | hu2
      · exact ⟨1, rfl⟩
      · rcases List.mem_cons.mp hu2 with rfl | hu3
        · exact ⟨2, rfl⟩
        · simp at hu3)

/-- C3 counterexample: POST /users accepts a payload whose email equals
the email of the stored record with id 1; afterwards two distinct stored
records hold the same email value. -/
theorem c3_counterexample :
    ((postUsersH (.shaped ("Eve") ("alice@example.com") none)
        initialUsers).2)[0]?
      = some ⟨some 1, "Alice Johnson", "alice@example.com", some 30⟩ ∧
    ((postUsersH (.shaped ("Eve") ("alice@example.com") none)
        initialUsers).2)[2]?
      = some ⟨some 3, "Eve", "alice@example.com", none⟩ := by
  constructor <;> decide

/-- C3 amended: email uniqueness is not an invariant.  The schema checks
only the email format, so POST /users accepts every schema-valid payload
regardless of whether its email already occurs in the collection, and
distinct records may share an email. -/
theorem c3_amended (us : List User) (b : ReqBody) (d : CreateData)
    (hb : parseUserCreate b = some d) :
    postUsersH b us =
      (⟨201, .user ⟨jsAdd1 (maxId us), d.name, d.email, d.age⟩⟩,
       us ++ [⟨jsAdd1 (maxId us), d.name, d.email, d.age⟩]) := by
  simp [postUsersH, hb]

/-- C3 witness: the amended theorem applied to a payload that duplicates
a stored email. -/
theorem c3_amended_witness :
    postUsersH (.shaped ("Eve") ("alice@example.com") none) initialUsers =
      (⟨201, .user ⟨jsAdd1 (maxId initialUsers), "Eve",
          "alice@example.com", none⟩⟩,
       initialUsers ++ [⟨jsAdd1 (maxId initialUsers), "Eve",
          "alice@example.com", none⟩]) :=
  c3_amended initialUsers (.shaped ("Eve") ("alice@example.com") none)
    ⟨"Eve", "alice@example.com", none⟩ (by decide)

/-- C9: a path id that parseInt turns into NaN compares unequal to every
stored id, so GET, PUT with a schema-valid body, and DELETE on such an id
all answer 404 and leave the collection unchanged instead of erroring. -/
theorem c9_nan_id (us : List User) (b : ReqBody) (d : CreateData)
    (hb : parseUserCreate b = some d) :
    getUserH none us = (⟨404, .err ("User not found")⟩, us) ∧
    putUserH none b us = (⟨404, .err ("User not found")⟩, us) ∧
    deleteUserH none us = (⟨404, .err ("User not found")⟩, us) := by
  have hfind : us.find? (fun u => matchesId none u.id) = none :=
    List.find?_eq_none.mpr (fun u _ => by simp [matchesId])
  have hidx : findIndex (fun u => matchesId none u.id) us = none :=
    (findIndex_eq_none_iff _ us).mpr (fun u _ => by simp [matchesId])
  refine ⟨?_, ?_, ?_⟩
  · simp [getUserH, hfind]
  · simp [putUserH, hb]
  · simp [deleteUserH, hidx]

/-- C9 witness: the NaN-id theorem at the seed collection with a concrete
valid body. -/
theorem c9_nan_id_witness :
    getUserH none initialUsers
      = (⟨404, .err ("User not found")⟩, initialUsers) ∧
    putUserH none (.shaped ("Carl") ("carl@example.com") none) initialUsers
      = (⟨404, .err ("User not found")⟩, initialUsers) ∧
    deleteUserH none initialUsers
      = (⟨404, .err ("User not found")⟩, initialUsers) :=
  c9_nan_id initialUsers (.shaped ("Carl") ("carl@example.com") none)
    ⟨"Carl", "carl@example.com", none⟩ (by decide)

/-- C10: the id POST /users assigns equals one plus the maximum id among
the records currently in the collection: when that maximum is the integer
m the new record gets id m plus one, the maximum is attained by a stored
record and bounds every stored integer id; on an empty collection
Math.max yields -Infinity, and the assigned id is -Infinity plus one,
which is -Infinity and in particular not a positive integer. -/
theorem c10_assigned_id (us : List User) (b : ReqBody) (d : CreateData)
    (hb : parseUserCreate b = some d) :
    (∀ m : Int, maxId us = some m →
      postUsersH b us =
        (⟨201, .user ⟨some (m + 1), d.name, d.email, d.age⟩⟩,
         us ++ [⟨some (m + 1), d.name, d.email, d.age⟩]) ∧
      (∃ u ∈ us, u.id = some m) ∧
      (∀ u ∈ us, ∀ k : Int, u.id = some k → k ≤ m)) ∧
    (maxId ([] : List User) = none ∧
      postUsersH b [] =
        (⟨201, .user ⟨none, d.name, d.email, d.age⟩⟩,
         [⟨none, d.name, d.email, d.age⟩]) ∧
      ∀ k : Int, 0 < k → jsAdd1 (maxId ([] : List User)) ≠ some k) := by
  refine ⟨?_, rfl, ?_, ?_⟩
  · intro m hm
    refine ⟨by simp [postUsersH, hb, hm, jsAdd1], maxId_mem us m hm, ?_⟩
    intro u hu k hk
    obtain ⟨m2, hm2, hk2⟩ := maxId_mem_le us u k hu hk
    rw [hm] at hm2
    injection hm2 with hm2
    omega
  · simp [postUsersH, hb, maxId, jsAdd1]
  · intro k _
    simp [maxId, jsAdd1]

/-- C10 witness: on the seed collection the maximum id is 2 and the
assigned id is 3. -/
theorem c10_assigned_id_witness :
    postUsersH (.shaped ("Carl") ("carl@example.com") none) initialUsers =
      (⟨201, .user ⟨some (2 + 1), "Carl", "carl@example.com", none⟩⟩,
       initialUsers ++ [⟨some (2 + 1), "Carl", "carl@example.com", none⟩]) :=
  (((c10_assigned_id initialUsers
      (.shaped ("Carl") ("carl@example.com") none)
      ⟨"Carl", "carl@example.com", none⟩ (by decide)).1) 2 (by decide)).1

/-- C2: with capacity 100 per 60 second window, a key with no live entry
that issues 101 requests inside one window gets its first 100 admitted
and the 101st rejected; once the window of a live entry has elapsed, 100
requests inside a fresh window are all admitted again, so the full
capacity is restored; every entry written at time t expires no later than
t plus 60, so a full window with no requests always lets the entry
elapse; and a rejected request is answered 429 with the user collection
untouched, whatever the route, so it reaches neither authentication nor
any route handler. -/
theorem c2_rate_limiter :
    (∀ (t0 : Nat) (ts : List Nat), ts.length = 100 →
        (∀ t ∈ ts, t < t0 + rlDuration) →
        (rlRun (t0 :: ts) none).1 = List.replicate 100 true ++ [false]) ∧
    (∀ (c ex now : Nat) (ts : List Nat), ex ≤ now → ts.length = 99 →
        (∀ t ∈ ts, t < now + rlDuration) →
        (rlRun (now :: ts) (some (c, ex))).1 = List.replicate 100 true) ∧
    (∀ (now c ex : Nat), ex ≤ now + rlDuration →
        ((rlStep now (some (c, ex))).2).2 ≤ now + rlDuration) ∧
    (∀ now : Nat, ((rlStep now none).2).2 = now + rlDuration) ∧
    (∀ (now : Nat) (key : String) (r : Route) (st : ServerState),
        (rlConsume now key st.rl).1 = false →
        handle now key r st =
          (⟨429, .err ("Rate limit exceeded")⟩,
           ⟨st.users, (rlConsume now key st.rl).2⟩)) := by
  refine ⟨?_, ?_, ?_, fun now => rfl, ?_⟩
  · intro t0 ts hlen hts
    have hrest : ∀ t ∈ ts, t < t0 + rlDuration := hts
    simp only [rlRun, rlStep]
    rw [rlRun_live ts 1 (t0 + rlDuration) hrest, hlen]
    show true :: padmits 1 100 = List.replicate 100 true ++ [false]
    decide
  · intro c ex now ts hex hlen hts
    have hnl : ¬ now < ex := by omega
    simp only [rlRun, rlStep, if_neg hnl]
    rw [rlRun_live ts 1 (now + rlDuration) hts, hlen]
    show true :: padmits 1 99 = List.replicate 100 true
    decide
  · intro now c ex hex
    simp only [rlStep]
    by_cases h : now < ex
    · rw [if_pos h]
      exact hex
    · rw [if_neg h]
  · intro now key r st hrej
    cases hrc : rlConsume now key st.rl with
    | mk ok rl2 =>
      rw [hrc] at hrej
      simp only at hrej
      subst hrej
      simp [handle, hrc]

/-- C2 witness: 101 immediate requests from a fresh key are admitted 100
times and then rejected. -/
theorem c2_rate_limiter_witness :
    (rlRun (0 :: List.replicate 100 0) none).1 =
      List.replicate 100 true ++ [false] :=
  c2_rate_limiter.1 0 (List.replicate 100 0) (by decide) (by decide)

/-- C5: on the protected route, a request with no bearer token (no
Authorization header, or one whose second space-separated word is missing
or empty) is answered 401; a present token that is junk or fails
verification (wrong signature or expired) is answered 403; in every such
case the response body is an error envelope and never the greeting the
route handler produces, so the handler did not run. -/
theorem c5_auth_middleware (now : Nat) (h : Bearer) :
    ((h = .absent ∨ h = .noToken) →
      (protectedH now h).status = 401 ∧
      ∀ sub : Subject, (protectedH now h).body ≠ .greeting sub) ∧
    (∀ (sub : Subject) (exp : Nat) (sig : String),
      h = .token (.signed sub exp sig) →
      (sig ≠ JWT_SECRET ∨ exp ≤ now) →
      (protectedH now h).status = 403 ∧
      ∀ s : Subject, (protectedH now h).body ≠ .greeting s) ∧
    (∀ s : String, h = .token (.junk s) →
      (protectedH now h).status = 403 ∧
      ∀ sub : Subject, (protectedH now h).body ≠ .greeting sub) := by
  refine ⟨?_, ?_, ?_⟩
  · rintro (rfl | rfl) <;>
      exact ⟨rfl, fun sub => by simp [protectedH, authenticateToken]⟩
  · rintro sub exp sig rfl hbad
    have hver : jwtVerify (.signed sub exp sig) now = none := by
      simp only [jwtVerify]
      rw [if_neg]
      rcases hbad with hbad | hbad
      · exact fun hc => hbad hc.1
      · exact fun hc => absurd hc.2 (by omega)
    exact ⟨by simp [protectedH, authenticateToken, hver],
      fun s => by simp [protectedH, authenticateToken, hver]⟩
  · rintro s rfl
    exact ⟨rfl, fun sub => by simp [protectedH, authenticateToken, jwtVerify]⟩

/-- C5 witness: a missing header is answered 401 and an expired token is
answered 403. -/
theorem c5_auth_middleware_witness :
    (protectedH 7 Bearer.absent).status = 401 ∧
    (protectedH 7 (Bearer.token (.signed ⟨1, "admin"⟩ 5 JWT_SECRET))).status
      = 403 :=
  ⟨((c5_auth_middleware 7 .absent).1 (Or.inl rfl)).1,
   ((c5_auth_middleware 7 (.token (.signed ⟨1, "admin"⟩ 5 JWT_SECRET))).2.1
      ⟨1, "admin"⟩ 5 JWT_SECRET rfl (Or.inr (by omega))).1⟩

/-- C6: a token issued by a successful login at time t carries expiry
t plus 86400 seconds (24 hours); presenting it on the protected route
succeeds with the greeting at every time before that expiry, and is
rejected 403 at every time after it. -/
theorem c6_token_lifetime (t : Nat) (b : LoginBody) (tok : TokenWord)
    (i : Int) (un : String)
    (hL : loginH t b = ⟨200, .loginOk tok i un⟩) :
    (∀ t2 : Nat, t2 < t + 86400 →
        protectedH t2 (.token tok) = ⟨200, .greeting ⟨i, un⟩⟩) ∧
    (∀ t2 : Nat, t + 86400 < t2 →
        protectedH t2 (.token tok) = ⟨403, .err ("Invalid token")⟩) := by
  cases hpa : parseAuth b with
  | none => simp [loginH, hpa] at hL
  | some up =>
    cases up with
    | mk username password =>
      simp only [loginH, hpa] at hL
      by_cases hname : (("admin" : String) == username) = true
      · rw [show authUsers.find? (fun u => u.username == username)
              = some ⟨1, "admin", bcryptHash ("admin123")⟩ from by
            simp [authUsers, List.find?, hname]] at hL
        by_cases hpw : bcryptCompare password (bcryptHash ("admin123")) = true
        · simp only [hpw, if_true] at hL
          have htok : jwtSign ⟨1, "admin"⟩ t = tok ∧ 1 = i ∧ "admin" = un := by
            have h1 := congrArg Response.body hL
            simpa using h1
          obtain ⟨rfl, rfl, rfl⟩ := htok
          constructor
          · intro t2 ht2
            simp [protectedH, authenticateToken, jwtVerify, jwtSign, ht2]
          · intro t2 ht2
            have hlt : ¬ t2 < t + 86400 := by omega
            simp [protectedH, authenticateToken, jwtVerify, jwtSign, hlt]
        · simp only [hpw, if_false] at hL
          exact absurd (congrArg Response.status hL) (by simp)
      · rw [show authUsers.find? (fun u => u.username == username) = none from by
            simp [authUsers, List.find?, hname]] at hL
        exact absurd (congrArg Response.status hL) (by simp)

/-- C6 witness: the admin login at time 0 yields a token that the
protected route accepts at time 100. -/
theorem c6_token_lifetime_witness :
    protectedH 100 (.token (jwtSign ⟨1, "admin"⟩ 0))
      = ⟨200, .greeting ⟨1, "admin"⟩⟩ :=
  (c6_token_lifetime 0 (.shaped ("admin") ("admin123"))
      (jwtSign ⟨1, "admin"⟩ 0) 1 ("admin") (by decide)).1 100 (by decide)

theorem dispatch_users_unchanged (now : Nat) (r : Route) (us : List User)
    (h200 : (dispatch now r us).1.status ≠ 200)
    (h201 : (dispatch now r us).1.status ≠ 201)
    (h204 : (dispatch now r us).1.status ≠ 204) :
    (dispatch now r us).2 = us := by
  cases r with
  | getUsersR => simp [dispatch] at h200
  | getUserR pid =>
    simp only [dispatch, getUserH]
    cases hf : us.find? (fun u => matchesId pid u.id) <;> simp
  | postUsersR b =>
    simp only [dispatch, postUsersH] at h201 ⊢
    cases hp : parseUserCreate b with
    | none => simp
    | some d => simp [hp] at h201
  | putUserR pid b =>
    simp only [dispatch, putUserH] at h200 ⊢
    cases hp : parseUserCreate b with
    | none => simp
    | some d =>
      cases pid with
      | none => simp
      | some n =>
        cases hf : findIndex (fun u => matchesId (some n) u.id) us with
        | none => simp [hf]
        | some i => simp [hp, hf] at h200
  | deleteUserR pid =>
    simp only [dispatch, deleteUserH] at h204 ⊢
    cases hf : findIndex (fun u => matchesId pid u.id) us with
    | none => simp
    | some i => simp [hf] at h204
  | loginR b => simp [dispatch]
  | protectedRoute hb => simp [dispatch]

/-- C4: a request whose response carries no success status (200, 201 or
204) leaves the user collection exactly as it was: validation runs before
any mutation in the create and update handlers, and rate-limit, auth,
not-found and validation failures never touch the collection. -/
theorem c4_failure_no_mutation (now : Nat) (key : String) (r : Route)
    (st : ServerState)
    (h : (handle now key r st).1.status ≠ 200 ∧
         (handle now key r st).1.status ≠ 201 ∧
         (handle now key r st).1.status ≠ 204) :
    (handle now key r st).2.users = st.users := by
  cases hrc : rlConsume now key st.rl with
  | mk ok rl2 =>
    cases ok with
    | false => simp [handle, hrc]
    | true =>
      have hh : handle now key r st =
          ((dispatch now r st.users).1,
           ⟨(dispatch now r st.users).2, rl2⟩) := by
        simp [handle, hrc]
      rw [hh] at h ⊢
      show (dispatch now r st.users).2 = st.users
      exact dispatch_users_unchanged now r st.users h.1 h.2.1 h.2.2

/-- C4 witness: a 404 GET through the full pipeline leaves the seed
collection unchanged. -/
theorem c4_failure_no_mutation_witness :
    (handle 0 ("k") (.getUserR (some 99)) ⟨initialUsers, []⟩).2.users
      = initialUsers :=
  c4_failure_no_mutation 0 ("k") (.getUserR (some 99)) ⟨initialUsers, []⟩
    (by decide)

/-- C7: DELETE /users/:id answers 404 and leaves the collection unchanged
when no record matches the id; when a record matches and the stored ids
are distinct (an invariant of reachable collections), it answers 204 with
an empty body and a subsequent GET /users/:id for the same id answers
404. -/
theorem c7_delete_then_get (us : List User) (pid : PathId) :
    (us.find? (fun u => matchesId pid u.id) = none →
      deleteUserH pid us = (⟨404, .err ("User not found")⟩, us)) ∧
    (∀ i : Nat, (us.map User.id).Nodup →
      findIndex (fun u => matchesId pid u.id) us = some i →
      (deleteUserH pid us).1 = ⟨204, .empty⟩ ∧
      (getUserH pid (deleteUserH pid us).2).1
        = ⟨404, .err ("User not found")⟩) := by
  constructor
  · intro hf
    have hidx : findIndex (fun u => matchesId pid u.id) us = none :=
      (findIndex_eq_none_iff _ us).mpr (fun u hu => by
        have hnp := List.find?_eq_none.mp hf u hu
        simpa using hnp)
    simp [deleteUserH, hidx]
  · intro i hnd hidx
    obtain ⟨hlt, a, ha, hpa⟩ := findIndex_some_spec _ us i hidx
    obtain ⟨n, rfl⟩ : ∃ n : Int, pid = some n := by
      cases pid with
      | none => simp [matchesId] at hpa
      | some n => exact ⟨n, rfl⟩
    have hdel : deleteUserH (some n) us = (⟨204, .empty⟩, us.eraseIdx i) := by
      simp [deleteUserH, hidx]
    rw [hdel]
    refine ⟨rfl, ?_⟩
    have hnone := find_eraseIdx_none us n i hnd hidx
    simp [getUserH, hnone]

/-- C7 witness: deleting the seed record with id 1 answers 204 and the
following GET answers 404. -/
theorem c7_delete_then_get_witness :
    (deleteUserH (some 1) initialUsers).1 = ⟨204, .empty⟩ ∧
    (getUserH (some 1) (deleteUserH (some 1) initialUsers).2).1
      = ⟨404, .err ("User not found")⟩ :=
  (c7_delete_then_get initialUsers (some 1)).2 0 (by decide) (by decide)

/-- C8: PUT /users/:id with a schema-valid body and a matching record at
index i answers 200 with the record built from the path id and the
payload, replaces exactly the record at index i, keeps the collection
length, and leaves every other position unchanged. -/
theorem c8_put_frame (us : List User) (n : Int) (b : ReqBody)
    (d : CreateData) (i : Nat)
    (hb : parseUserCreate b = some d)
    (hi : findIndex (fun u => matchesId (some n) u.id) us = some i) :
    putUserH (some n) b us =
      (⟨200, .user ⟨some n, d.name, d.email, d.age⟩⟩,
       us.set i ⟨some n, d.name, d.email, d.age⟩) ∧
    (putUserH (some n) b us).2.length = us.length ∧
    (putUserH (some n) b us).2[i]? = some ⟨some n, d.name, d.email, d.age⟩ ∧
    ∀ j : Nat, j ≠ i → (putUserH (some n) b us).2[j]? = us[j]? := by
  have hput : putUserH (some n) b us =
      (⟨200, .user ⟨some n, d.name, d.email, d.age⟩⟩,
       us.set i ⟨some n, d.name, d.email, d.age⟩) := by
    simp [putUserH, hb, hi]
  obtain ⟨hlt, -⟩ := findIndex_some_spec _ us i hi
  refine ⟨hput, ?_, ?_, ?_⟩
  · rw [hput]
    simp
  · rw [hput]
    exact List.getElem?_set_self hlt
  · intro j hj
    rw [hput]
    exact List.getElem?_set_ne (Ne.symm hj)

/-- C8 witness: updating the seed record with id 2. -/
theorem c8_put_frame_witness :
    putUserH (some 2) (.shaped ("Bobby") ("bobby@example.com") none)
        initialUsers =
      (⟨200, .user ⟨some 2, "Bobby", "bobby@example.com", none⟩⟩,
       initialUsers.set 1 ⟨some 2, "Bobby", "bobby@example.com", none⟩) :=
  (c8_put_frame initialUsers 2
    (.shaped ("Bobby") ("bobby@example.com") none)
    ⟨"Bobby", "bobby@example.com", none⟩ 1 (by decide) (by decide)).1

end Template2
